import Mathlib

/-!
Verification development for the cat-feeder scheduling and gating core:
a shallow embedding of `catfeeder/queue_manager.py`, `catfeeder/sleep.py`,
`catfeeder/processor.py` and `catfeeder/arduino.py`, with theorems checking
the specification's claims about scheduling, retry, close, and sleep gating.

Time in the queue model is ℚ (monotonic seconds); time in the sleep model is
ℤ (wall-clock minutes since an arbitrary epoch midnight).
-/

namespace CatFeeder

/-! ## Data model (`catfeeder/config.py`, `catfeeder/models.py`) -/

/-- Record `QueueSettings` from `config.py`: the three queue durations, in seconds. -/
structure QueueSettings where
  default_delay_seconds : ℚ
  minimum_gap_seconds : ℚ
  maximum_delay_seconds : ℚ
deriving Repr, DecidableEq

/-- Record `DonationEvent` from `models.py`, restricted to the fields the scheduling
core reads: the unique identifier, the username, and the tier's motor id
(the component of `as_display_payload` consumed by `trigger_motor`). -/
structure DonationEvent where
  identifier : String
  username : String
  motor : ℕ
deriving Repr, DecidableEq

/-- Record `ScheduledDonation` from `models.py`: a donation wrapped with its
`execute_at` monotonic instant and retry `attempt` counter. -/
structure ScheduledDonation where
  donation : DonationEvent
  execute_at : ℚ
  attempt : ℕ := 0
deriving Repr, DecidableEq

/-! ## The delayed donation queue (`catfeeder/queue_manager.py`)

The Python class keeps a `heapq` of `(execute_at, counter, scheduled)`
triples, a monotonically increasing `counter` used as FIFO tie-break, a
`next_available_time` updated only when the worker pops an entry, and a
`closed` flag set by `close()`.  The heap is modelled as a list kept sorted
by the lexicographic order on `(execute_at, counter)`: since the counter is
unique per entry, popping the head of the sorted list returns exactly the
element `heapq.heappop` would return. -/

/-- One heap cell: `(execute_at, counter, scheduled)` as pushed by the code. -/
abbrev HeapCell := ℚ × ℕ × ScheduledDonation

/-- Lexicographic "strictly earlier" on `(execute_at, counter)` keys,
the order `heapq` uses on the tuples (the counter is unique, so the
`ScheduledDonation` component is never compared). -/
def cellBefore (a b : HeapCell) : Bool :=
  a.1 < b.1 || (a.1 == b.1 && a.2.1 < b.2.1)

/-- Push `heapq.heappush` modelled as sorted insertion. -/
def heapPush (q : List HeapCell) (item : HeapCell) : List HeapCell :=
  match q with
  | [] => [item]
  | x :: xs => if cellBefore item x then item :: x :: xs else x :: heapPush xs item

/-- The mutable state of `DelayedDonationQueue`. -/
structure QueueState where
  queue : List HeapCell
  counter : ℕ
  next_available_time : ℚ
  closed : Bool
deriving Repr, DecidableEq

/-- Constructor `DelayedDonationQueue.__init__`: empty heap, counter 0,
`next_available_time = time.monotonic()` at construction, not closed. -/
def initQueue (construction_time : ℚ) : QueueState :=
  { queue := [], counter := 0, next_available_time := construction_time,
    closed := false }

/-- Method `DelayedDonationQueue.close`: sets the `closed` flag (the event set and
the task join have no counterpart in the pure model). -/
def close (s : QueueState) : QueueState := { s with closed := true }

/-- Method `DelayedDonationQueue.enqueue` at monotonic instant `now`:
`earliest = max(next_available_time, now + default_delay)`,
`latest = now + maximum_delay`, `execute_at = min(earliest, latest)`;
push `(execute_at, counter, ScheduledDonation(donation, execute_at))` and
increment the counter.  Note that `next_available_time` is not modified. -/
def enqueue (settings : QueueSettings) (s : QueueState) (now : ℚ)
    (donation : DonationEvent) : QueueState :=
  let earliest := max s.next_available_time (now + settings.default_delay_seconds)
  let latest := now + settings.maximum_delay_seconds
  let execute_at := min earliest latest
  let scheduled : ScheduledDonation := ⟨donation, execute_at, 0⟩
  { s with
    queue := heapPush s.queue (execute_at, s.counter, scheduled)
    counter := s.counter + 1 }

/-- Method `_reschedule_on_failure`: `backoff = min(minimum_gap * (attempt + 1),
maximum_delay)`; `execute_at = now + backoff` (the heap push is done by the
caller of this pure update in the model). -/
def reschedule_on_failure (settings : QueueSettings) (e : ScheduledDonation)
    (now : ℚ) : ScheduledDonation :=
  let backoff := min (settings.minimum_gap_seconds * ((e.attempt : ℚ) + 1))
    settings.maximum_delay_seconds
  { e with execute_at := now + backoff }

/-- The worker's failure path: `scheduled.attempt += 1` followed by
`_reschedule_on_failure(scheduled)`. -/
def workerFail (settings : QueueSettings) (e : ScheduledDonation) (now : ℚ) :
    ScheduledDonation :=
  reschedule_on_failure settings { e with attempt := e.attempt + 1 } now

/-- One due-entry iteration of the worker's inner loop at instant `now`,
with the processor outcome abstracted as `ok` (`true` = the awaited
processor returned, `false` = it raised): if the head is due
(`execute_at ≤ now`), pop it, set `next_available_time = now + minimum_gap`,
and either record the successful dispatch or re-insert the entry via the
failure path.  If the queue is empty or the head is in the future, nothing
happens (the code waits instead).  The inner loop never reads the `closed`
flag, and no gap check is performed at pop time. -/
def dispatchStep (settings : QueueSettings) (s : QueueState) (now : ℚ)
    (ok : Bool) : List (ℚ × DonationEvent) × QueueState :=
  match s.queue with
  | [] => ([], s)
  | (t, _, e) :: rest =>
    if t ≤ now then
      let s1 : QueueState :=
        { s with queue := rest
                 next_available_time := now + settings.minimum_gap_seconds }
      if ok then ([(now, e.donation)], s1)
      else
        let e' := workerFail settings e now
        ([], { s1 with queue := heapPush s1.queue (e'.execute_at, s1.counter, e')
                       counter := s1.counter + 1 })
    else ([], s)

/-! ## The sleep controller (`catfeeder/sleep.py`)

Wall-clock instants are modelled as whole minutes (ℤ) since an arbitrary
epoch midnight in the configured timezone; a time-of-day is its minute
count since midnight (`"23:00"` ↦ `23 * 60`).  `datetime.combine(now.date(), t)`
becomes `dayStart now + t`, where `dayStart now = now - now % 1440` is the
midnight of `now`'s day (`%` is Lean's `Int.emod`, which is non-negative
here), and `timedelta(days=1)` becomes `+ 1440`. -/

/-- Record `SleepSettings` from `config.py`, with `start`/`end` as minutes since
midnight (`end` is a Lean keyword, hence the underscore). -/
structure SleepSettings where
  enabled : Bool
  start : ℤ
  end_ : ℤ
  check_interval_seconds : ℕ := 30
deriving Repr, DecidableEq

/-- Record `SleepState` from `sleep.py`. -/
structure SleepState where
  is_sleeping : Bool
  next_transition : ℤ
deriving Repr, DecidableEq

/-- Midnight of the day containing instant `now` (`now.date()` as an instant). -/
def dayStart (now : ℤ) : ℤ := now - now % 1440

/-- Method `SleepController._is_sleep_period(now)`. -/
def is_sleep_period (s : SleepSettings) (now : ℤ) : Bool :=
  if ¬ s.enabled then false
  else
    let start_dt := dayStart now + s.start
    let end_dt := dayStart now + s.end_
    if s.start < s.end_ then decide (start_dt ≤ now ∧ now < end_dt)
    else if now ≥ start_dt then true
    else decide (now < end_dt)

/-- Method `SleepController._compute_next_transition(is_sleeping, now)`.  With the
feature disabled it returns the `now + 12h` placeholder; otherwise it
branches on same-day (`start < end`) versus midnight-crossing windows,
mirroring the source's four day-rollover cases. -/
def compute_next_transition (s : SleepSettings) (is_sleeping : Bool)
    (now : ℤ) : ℤ :=
  if ¬ s.enabled then now + 12 * 60
  else
    let start_dt := dayStart now + s.start
    let end_dt := dayStart now + s.end_
    if s.start < s.end_ then
      if is_sleeping then end_dt else start_dt
    else
      if is_sleeping then
        if now ≥ start_dt then end_dt + 1440 else end_dt
      else
        if now < end_dt then end_dt else start_dt + 1440

/-- Method `SleepController._evaluate_state`, restricted to the state it computes
at instant `now` with manual override `override` (`none` = unset): the
computed `is_sleeping` is replaced by the override when one is set, and
`next_transition` is computed *after* that replacement. -/
def evaluate_state (s : SleepSettings) (override : Option Bool) (now : ℤ) :
    SleepState :=
  let is_sleeping := (is_sleep_period s now : Bool)
  let is_sleeping := match override with
    | some v => v
    | none => is_sleeping
  ⟨is_sleeping, compute_next_transition s is_sleeping now⟩

/-! ## The arduino controller and the donation processor
(`catfeeder/arduino.py`, `catfeeder/processor.py`)

`ArduinoController.trigger_motor` returns early (sending nothing) when the
controller's `_sleeping` flag is set; otherwise `_write_command` either
sends `MOTOR:<id>` or raises `SerialException` (connection failure or write
failure, collapsed into one `serial_ok` flag).

`DonationProcessor.process` saves the payload, broadcasts it, then calls
`trigger_motor` inside a `try/except SerialException` that only logs; an
exception from `save` or `broadcast` propagates to the queue worker.  The
fallibility of the two external awaits is abstracted by `save_ok` /
`broadcast_ok` flags. -/

/-- Result of `trigger_motor`: the serial commands written, and whether a
`SerialException` escaped. -/
structure TriggerResult where
  commands : List String
  serial_raised : Bool
deriving Repr, DecidableEq

/-- Method `ArduinoController.trigger_motor(motor_id)` with controller state
`sleeping` (set via `set_sleeping`) and serial health `serial_ok`. -/
def trigger_motor (sleeping serial_ok : Bool) (motor_id : ℕ) : TriggerResult :=
  if sleeping then ⟨[], false⟩
  else if serial_ok then ⟨["MOTOR:" ++ toString motor_id], false⟩
  else ⟨[], true⟩

/-- Observable outcome of `DonationProcessor.process`. -/
structure ProcessResult where
  saved : Bool
  broadcasted : Bool
  motor_commands : List String
  raised : Bool
deriving Repr, DecidableEq

/-- Method `DonationProcessor.process(donation)`: save, broadcast, then trigger the
motor with `SerialException` caught and logged.  `raised = true` means an
exception propagated out of `process` (to the queue worker). -/
def process (sleeping serial_ok save_ok broadcast_ok : Bool)
    (donation : DonationEvent) : ProcessResult :=
  if ¬ save_ok then ⟨false, false, [], true⟩
  else if ¬ broadcast_ok then ⟨true, false, [], true⟩
  else
    let t := trigger_motor sleeping serial_ok donation.motor
    ⟨true, true, t.commands, false⟩

/-! ## Worker loop and composed pipeline models -/

/-- The `_worker` loop under a fuel bound.  The schedule lists, per chance
the event loop gives the worker to run, the monotonic instant `now` and the
processor outcome `ok`.  Faithful control flow of the source: the `closed`
flag is read only at the top of the outer `while`, which the worker reaches
when the inner loop observes an empty queue and breaks; when the head of
the queue is due, the inner loop pops and dispatches it without consulting
`closed`; when the head is in the future, the worker waits and re-checks
(still inside the inner loop, still without consulting `closed`). -/
def workerRun (settings : QueueSettings) :
    ℕ → QueueState → List (ℚ × Bool) → List (ℚ × DonationEvent) × QueueState
  | 0, s, _ => ([], s)
  | _ + 1, s, [] => ([], s)
  | fuel + 1, s, (now, ok) :: rest =>
    match s.queue with
    | [] =>
      if s.closed then ([], s)
      else workerRun settings fuel s rest
    | (t, _, _) :: _ =>
      if t ≤ now then
        let r := dispatchStep settings s now ok
        let r2 := workerRun settings fuel r.2 rest
        (r.1 ++ r2.1, r2.2)
      else workerRun settings fuel s rest

/-- The worker's due-entry iteration with the actual `DonationProcessor`
composed in (instead of the abstract `ok` flag): the processor runs with the
arduino controller's `_sleeping` flag as it stands at dispatch time, and the
worker reschedules exactly when `process` raises.  Returns the `process`
outcome (`none` when nothing was dispatched) and the new queue state. -/
def dispatchProcessStep (settings : QueueSettings)
    (sleeping serial_ok save_ok broadcast_ok : Bool) (s : QueueState)
    (now : ℚ) : Option ProcessResult × QueueState :=
  match s.queue with
  | [] => (none, s)
  | (t, _, e) :: rest =>
    if t ≤ now then
      let s1 : QueueState :=
        { s with queue := rest
                 next_available_time := now + settings.minimum_gap_seconds }
      let r := process sleeping serial_ok save_ok broadcast_ok e.donation
      if r.raised then
        let e' := workerFail settings e now
        (some r, { s1 with queue := heapPush s1.queue (e'.execute_at, s1.counter, e')
                           counter := s1.counter + 1 })
      else (some r, s1)
    else (none, s)

/-- The composed pipeline with the sleep state as a function of time: the
sleep controller's broadcast sets the arduino's `_sleeping` flag, so the
flag consulted by `trigger_motor` is the published sleep state at the
dispatch instant, `sleepAt now` — never the state at enqueue time. -/
def dispatchAt (settings : QueueSettings) (sleepAt : ℚ → Bool)
    (serial_ok save_ok broadcast_ok : Bool) (s : QueueState) (now : ℚ) :
    Option ProcessResult × QueueState :=
  dispatchProcessStep settings (sleepAt now) serial_ok save_ok broadcast_ok s now

/-- The worker's failure path applied at the entry's own due instant (the
earliest instant the worker dispatches it): the "retry's own clock". -/
def failAtDue (settings : QueueSettings) (e : ScheduledDonation) :
    ScheduledDonation :=
  workerFail settings e e.execute_at

/-- Iterate `k` consecutive failing dispatches, each at the rescheduled entry's due
instant. -/
def failIterN (settings : QueueSettings) : ℕ → ScheduledDonation → ScheduledDonation
  | 0, e => e
  | k + 1, e => failIterN settings k (failAtDue settings e)

/-- Due instant of the head of the queue (`0` when empty; only used on
non-empty queues). -/
def headTime (s : QueueState) : ℚ :=
  match s.queue with
  | [] => 0
  | (t, _, _) :: _ => t

/-- A run in which the worker dispatches the head at its due instant, the
processor fails `k` times, and the `k+1`-st dispatch succeeds. -/
def runRetries (settings : QueueSettings) :
    ℕ → QueueState → List (ℚ × DonationEvent) × QueueState
  | 0, s => dispatchStep settings s (headTime s) true
  | k + 1, s =>
    let r := dispatchStep settings s (headTime s) false
    let r2 := runRetries settings k r.2
    (r.1 ++ r2.1, r2.2)

/-! ## Concrete fixtures used by counterexamples and witnesses -/

/-- Queue settings: no default delay, 5 s minimum gap, 100 s maximum delay. -/
def burstSettings : QueueSettings := ⟨0, 5, 100⟩

/-- Queue settings with a tight cap: 1 s minimum gap, 2 s maximum delay. -/
def retrySettings : QueueSettings := ⟨0, 1, 2⟩

def donA : DonationEvent := ⟨"a", "alice", 1⟩
def donB : DonationEvent := ⟨"b", "bob", 2⟩
def donC : DonationEvent := ⟨"c", "carol", 3⟩

/-- Sleep window `start="23:00"`, `end="06:00"`, enabled — in minutes. -/
def nightSettings : SleepSettings := ⟨true, 23 * 60, 6 * 60, 30⟩

/-- Same-day sleep window `start="08:00"`, `end="20:00"`, enabled. -/
def dayWindowSettings : SleepSettings := ⟨true, 8 * 60, 20 * 60, 30⟩

/-- Sleep feature disabled. -/
def disabledSettings : SleepSettings := ⟨false, 23 * 60, 6 * 60, 30⟩

/-- Degenerate window with `start = end = 08:00`, enabled: the code takes
the crossing-midnight branch, which is satisfied at every instant. -/
def equalSettings : SleepSettings := ⟨true, 8 * 60, 8 * 60, 30⟩

/-! ## Helper lemmas -/

theorem mem_heapPush : ∀ (q : List HeapCell) (item : HeapCell),
    item ∈ heapPush q item
  | [], _ => by simp [heapPush]
  | x :: xs, item => by
    unfold heapPush
    by_cases h : cellBefore item x
    · simp [h]
    · simp [h, mem_heapPush xs item]

theorem heapPush_length (q : List HeapCell) (item : HeapCell) :
    (heapPush q item).length = q.length + 1 := by
  induction q with
  | nil => simp [heapPush]
  | cons x xs ih =>
    unfold heapPush
    by_cases h : cellBefore item x
    · simp [h]
    · simp [h, ih]

theorem failIterN_attempt (settings : QueueSettings) :
    ∀ (k : ℕ) (e : ScheduledDonation),
      (failIterN settings k e).attempt = e.attempt + k
  | 0, _ => rfl
  | k + 1, e => by
    have ih := failIterN_attempt settings k (failAtDue settings e)
    simp only [failIterN] at ih ⊢
    rw [ih]
    simp [failAtDue, workerFail, reschedule_on_failure]
    omega

theorem failIterN_donation (settings : QueueSettings) :
    ∀ (k : ℕ) (e : ScheduledDonation),
      (failIterN settings k e).donation = e.donation
  | 0, _ => rfl
  | k + 1, e => by
    have ih := failIterN_donation settings k (failAtDue settings e)
    simp only [failIterN] at ih ⊢
    rw [ih]
    rfl

theorem runRetries_singleton (settings : QueueSettings) :
    ∀ (k : ℕ) (s : QueueState) (c : ℕ) (e : ScheduledDonation),
      s.queue = [(e.execute_at, c, e)] →
      (runRetries settings k s).1
          = [((failIterN settings k e).execute_at,
              (failIterN settings k e).donation)]
        ∧ (runRetries settings k s).2.queue = []
        ∧ (runRetries settings k s).2.counter = s.counter + k
  | 0, s, c, e, hq => by
    simp only [runRetries, headTime, hq, dispatchStep, le_refl, if_true,
      failIterN]
    simp
  | k + 1, s, c, e, hq => by
    have step :
        dispatchStep settings s (headTime s) false
          = ([], { s with
              queue := [((failAtDue settings e).execute_at, s.counter,
                failAtDue settings e)]
              counter := s.counter + 1
              next_available_time :=
                e.execute_at + settings.minimum_gap_seconds }) := by
      simp only [headTime, hq, dispatchStep, le_refl, if_true, heapPush,
        failAtDue]
      simp
    have ih := runRetries_singleton settings k
      { s with
        queue := [((failAtDue settings e).execute_at, s.counter,
          failAtDue settings e)]
        counter := s.counter + 1
        next_available_time := e.execute_at + settings.minimum_gap_seconds }
      s.counter (failAtDue settings e) rfl
    simp only [runRetries, step, failIterN]
    refine ⟨by simpa using ih.1, ih.2.1, by have := ih.2.2; simp at this; omega⟩

/-! ## Claim theorems -/

/-- C2: on every `enqueue(event)` at monotonic time `now`, the scheduled
entry's `execute_at` equals
`min(max(next_available_time, now + default_delay), now + maximum_delay)`
— that entry, keyed with the pre-increment counter, is in the queue — and
in particular `execute_at ≤ now + maximum_delay` holds for every enqueue,
whatever the prior queue state (including saturation). -/
theorem enqueue_schedule_formula (settings : QueueSettings) (s : QueueState)
    (now : ℚ) (d : DonationEvent) :
    (min (max s.next_available_time (now + settings.default_delay_seconds))
        (now + settings.maximum_delay_seconds), s.counter,
      (⟨d, min (max s.next_available_time (now + settings.default_delay_seconds))
          (now + settings.maximum_delay_seconds), 0⟩ : ScheduledDonation))
      ∈ (enqueue settings s now d).queue
    ∧ min (max s.next_available_time (now + settings.default_delay_seconds))
        (now + settings.maximum_delay_seconds)
      ≤ now + settings.maximum_delay_seconds := by
  constructor
  · simp only [enqueue]
    exact mem_heapPush _ _
  · exact min_le_right _ _

/-- C1 (failing input): with `default_delay = 0`, `minimum_gap = 5`,
`maximum_delay = 100`, two donations enqueued at `t = 0` before the worker
runs are both dispatched at `t = 0`: the gap between the two consecutive
successful dispatch timestamps is `0 < 5`, while before the second dispatch
the queue still held the second entry (it was not empty and idle) and that
entry's own deadline did not force early dispatch (its `execute_at = 0` is
strictly below its `latest = 0 + 100`).  `enqueue` checks
`next_available_time` only at enqueue time and the worker never re-checks
the gap at pop time, so the minimum-gap invariant fails. -/
theorem burst_dispatch_violates_minimum_gap :
    (dispatchStep burstSettings
        (enqueue burstSettings (enqueue burstSettings (initQueue 0) 0 donA) 0 donB)
        0 true).1 = [(0, donA)]
    ∧ (dispatchStep burstSettings
        (dispatchStep burstSettings
          (enqueue burstSettings (enqueue burstSettings (initQueue 0) 0 donA) 0 donB)
          0 true).2 0 true).1 = [(0, donB)]
    ∧ ((0 : ℚ) - 0 < burstSettings.minimum_gap_seconds)
    ∧ (dispatchStep burstSettings
        (enqueue burstSettings (enqueue burstSettings (initQueue 0) 0 donA) 0 donB)
        0 true).2.queue = [(0, 1, ⟨donB, 0, 0⟩)]
    ∧ (0 : ℚ) < 0 + burstSettings.maximum_delay_seconds := by
  norm_num [dispatchStep, enqueue, initQueue, heapPush, cellBefore,
    burstSettings, donA, donB]

/-- C3: retry convergence and backoff.  (1) the worker's failure path
increments `attempt` by exactly one and reschedules at
`now + min(minimum_gap * (attempt + 1), maximum_delay)`, `attempt` being
the freshly incremented counter; (2) a failing dispatch re-inserts the
entry (queue size is preserved, nothing is delivered); (3) a freshly
enqueued donation whose dispatch fails `k` times and then succeeds yields
exactly one successful delivery, exactly `k` re-insertions (the counter
grows by `k`), an empty queue afterwards, and a strictly increasing attempt
counter; (4) the elapsed delay from the first enqueue is *not* bounded by
`maximum_delay`: with `minimum_gap = 1`, `maximum_delay = 2`, three
failures already push the due time past the cap. -/
theorem retry_backoff_policy (settings : QueueSettings) (t0c t0 : ℚ)
    (d : DonationEvent) (k : ℕ) :
    (∀ (e : ScheduledDonation) (now : ℚ),
      (workerFail settings e now).attempt = e.attempt + 1
      ∧ (workerFail settings e now).execute_at
          = now + min (settings.minimum_gap_seconds *
                (((workerFail settings e now).attempt : ℚ) + 1))
              settings.maximum_delay_seconds)
    ∧ (∀ (s : QueueState) (now t : ℚ) (c : ℕ) (e : ScheduledDonation)
        (rest : List HeapCell), s.queue = (t, c, e) :: rest → t ≤ now →
        ((dispatchStep settings s now false).2.queue).length = s.queue.length
        ∧ (dispatchStep settings s now false).1 = [])
    ∧ ((runRetries settings k (enqueue settings (initQueue t0c) t0 d)).1
          = [((failIterN settings k
                ⟨d, min (max t0c (t0 + settings.default_delay_seconds))
                  (t0 + settings.maximum_delay_seconds), 0⟩).execute_at, d)]
        ∧ (runRetries settings k (enqueue settings (initQueue t0c) t0 d)).2.queue
            = []
        ∧ (runRetries settings k (enqueue settings (initQueue t0c) t0 d)).2.counter
            = (enqueue settings (initQueue t0c) t0 d).counter + k
        ∧ ∀ i : ℕ, (failIterN settings (i + 1)
              ⟨d, min (max t0c (t0 + settings.default_delay_seconds))
                (t0 + settings.maximum_delay_seconds), 0⟩).attempt
            = (failIterN settings i
              ⟨d, min (max t0c (t0 + settings.default_delay_seconds))
                (t0 + settings.maximum_delay_seconds), 0⟩).attempt + 1)
    ∧ (failIterN retrySettings 3 ⟨d, 0, 0⟩).execute_at
        > 0 + retrySettings.maximum_delay_seconds := by
  refine ⟨?_, ?_, ?_, ?_⟩
  · intro e now
    constructor
    · rfl
    · simp [workerFail, reschedule_on_failure]
  · intro s now t c e rest hq hle
    simp only [dispatchStep, hq, hle, if_true, Bool.false_eq_true, if_false]
    constructor
    · simp [heapPush_length]
    · trivial
  · have hrun := runRetries_singleton settings k
      (enqueue settings (initQueue t0c) t0 d) 0
      ⟨d, min (max t0c (t0 + settings.default_delay_seconds))
        (t0 + settings.maximum_delay_seconds), 0⟩
      (by simp [enqueue, initQueue, heapPush])
    refine ⟨?_, hrun.2.1, hrun.2.2, ?_⟩
    · rw [hrun.1, failIterN_donation]
    · intro i
      rw [failIterN_attempt, failIterN_attempt]
      omega
  · norm_num [failIterN, failAtDue, workerFail, reschedule_on_failure,
      retrySettings]

/-- C3 witness: the re-insertion clause of `retry_backoff_policy` applied at
a concrete failing dispatch — the queue keeps its single entry. -/
theorem retry_backoff_policy_witness :
    ((dispatchStep retrySettings (enqueue retrySettings (initQueue 0) 0 donC)
        0 false).2.queue).length
      = (enqueue retrySettings (initQueue 0) 0 donC).queue.length := by
  exact ((retry_backoff_policy retrySettings 0 0 donC 0).2.1
    (enqueue retrySettings (initQueue 0) 0 donC) 0 0 0 ⟨donC, 0, 0⟩ []
    (by norm_num [enqueue, initQueue, heapPush, retrySettings])
    (by norm_num)).1

/-- C4 counterexample: `close()` does not abandon pending work — a donation
already queued and due is still dispatched by the worker after `close` has
set the `closed` flag, because the inner dispatch loop never consults it. -/
theorem close_dispatches_pending_entry :
    (workerRun burstSettings 2
        (close (enqueue burstSettings (initQueue 0) 0 donC)) [(0, true)]).1
      = [(0, donC)] := by
  norm_num [workerRun, dispatchStep, enqueue, initQueue, close, heapPush,
    burstSettings, donC]

/-- C4 (amended): after `close()`, the worker exits — dispatching nothing
further — as soon as it observes an empty queue at the top of its loop, and
never parks waiting for new work; but entries still pending while the
worker is in its inner dispatch loop are dispatched when due (the queue is
drained, not abandoned), the in-flight dispatch finishing naturally. -/
theorem close_worker_semantics :
    (∀ (settings : QueueSettings) (fuel : ℕ) (s : QueueState)
        (sched : List (ℚ × Bool)),
      s.closed = true → s.queue = [] →
      workerRun settings fuel s sched = ([], s))
    ∧ (∀ (settings : QueueSettings) (fuel : ℕ) (s : QueueState)
        (now t : ℚ) (c : ℕ) (e : ScheduledDonation) (rest : List HeapCell)
        (sched : List (ℚ × Bool)),
      s.closed = true → s.queue = (t, c, e) :: rest → t ≤ now →
      (workerRun settings (fuel + 1) s ((now, true) :: sched)).1
        = (now, e.donation)
            :: (workerRun settings fuel
                (dispatchStep settings s now true).2 sched).1) := by
  constructor
  · intro settings fuel s sched hc hq
    match fuel, sched with
    | 0, _ => rfl
    | _ + 1, [] => rfl
    | _ + 1, _ :: _ => simp [workerRun, hq, hc]
  · intro settings fuel s now t c e rest sched hc hq hle
    simp only [workerRun, hq, hle, if_true]
    simp [dispatchStep, hq, hle]

/-- C4 witness: both clauses of `close_worker_semantics` at concrete inputs
— a closed idle queue makes the worker exit untouched, and a closed queue
with a due pending entry still dispatches it. -/
theorem close_worker_semantics_witness :
    workerRun burstSettings 1 (close (initQueue 0)) [(0, true)]
        = ([], close (initQueue 0))
    ∧ (workerRun burstSettings 2
        (close (enqueue burstSettings (initQueue 0) 0 donA)) [(0, true)]).1
      = (0, donA)
          :: (workerRun burstSettings 1
              (dispatchStep burstSettings
                (close (enqueue burstSettings (initQueue 0) 0 donA)) 0 true).2
              []).1 := by
  constructor
  · exact close_worker_semantics.1 burstSettings 1 (close (initQueue 0))
      [(0, true)] rfl rfl
  · exact close_worker_semantics.2 burstSettings 1
      (close (enqueue burstSettings (initQueue 0) 0 donA)) 0 0 0
      ⟨donA, 0, 0⟩ [] [] rfl
      (by norm_num [enqueue, initQueue, close, heapPush, burstSettings])
      (by norm_num)

/-- C6 counterexample: with `start="23:00"`, `end="06:00"`, `enabled=true`,
evaluating at `12:00` does *not* yield `nextTransition = 23:00` of the same
day (`1380` minutes): the code returns `start + 1 day`. -/
theorem noon_transition_not_same_day :
    (evaluate_state nightSettings none 720).next_transition
      ≠ dayStart 720 + 23 * 60 := by
  decide

/-- C6 (amended): with `start="23:00"`, `end="06:00"`, `enabled=true`,
evaluating at `23:30` (minute `1410`) yields sleeping with
`nextTransition = 06:00` of the following morning, and evaluating at
`12:00` (minute `720`) yields awake with `nextTransition = 23:00` of the
*following* day. -/
theorem crossing_midnight_evaluation :
    evaluate_state nightSettings none 1410 = ⟨true, 1800⟩
    ∧ (1800 : ℤ) = dayStart 1410 + 1440 + 6 * 60
    ∧ evaluate_state nightSettings none 720 = ⟨false, 2820⟩
    ∧ (2820 : ℤ) = dayStart 720 + 1440 + 23 * 60 := by
  decide

/-- C7 counterexample: with the `23:00`–`06:00` window at `12:00`, forcing
the override to sleeping changes `next_transition` (`06:00` of the current
day, in the past) away from the value the underlying window alone would
give (`23:00` of the following day): the override *is* applied before the
transition is computed. -/
theorem override_changes_next_transition :
    (evaluate_state nightSettings (some true) 720).is_sleeping = true
    ∧ (evaluate_state nightSettings (some true) 720).next_transition = 360
    ∧ compute_next_transition nightSettings
        (is_sleep_period nightSettings 720) 720 = 2820
    ∧ (360 : ℤ) ≠ 2820 := by
  decide

/-- C7 (amended): when a manual override is set, the published
`is_sleeping` equals the override value, and `next_transition` is computed
from the underlying window *using the overridden value* — so it can differ
from the transition the window alone would produce (the no-override
evaluation uses the computed period instead). -/
theorem override_replaces_state_before_transition (s : SleepSettings)
    (ov : Bool) (now : ℤ) :
    (evaluate_state s (some ov) now).is_sleeping = ov
    ∧ (evaluate_state s (some ov) now).next_transition
        = compute_next_transition s ov now
    ∧ (evaluate_state s none now).next_transition
        = compute_next_transition s (is_sleep_period s now) now := by
  exact ⟨rfl, rfl, rfl⟩

/-- C8 counterexample, recording both failing regimes of the claim.
With the same-day window `08:00`–`20:00` enabled, evaluating awake at
`21:00` (minute `1260`) computes `nextTransition = 08:00` of the *same*
day (minute `480`), which is in the past — not strictly later than the
instant it was computed.  And with the degenerate window
`start = end = 08:00` enabled, the state at `10:00` (minute `600`) is
sleeping and the computed transition (minute `1920`, `08:00` next day) is
itself a sleeping instant — the parity does not flip either. -/
theorem next_transition_in_past_counterexample :
    (dayWindowSettings.enabled = true
      ∧ is_sleep_period dayWindowSettings 1260 = false
      ∧ compute_next_transition dayWindowSettings
          (is_sleep_period dayWindowSettings 1260) 1260 = 480
      ∧ (480 : ℤ) < 1260)
    ∧ (equalSettings.enabled = true
      ∧ is_sleep_period equalSettings 600 = true
      ∧ compute_next_transition equalSettings
          (is_sleep_period equalSettings 600) 600 = 1920
      ∧ is_sleep_period equalSettings 1920
          ≠ ! is_sleep_period equalSettings 600) := by
  decide

/-- C10 (implicit): the manual override outranks the `enabled` flag — with
the sleep feature disabled the computed state is awake, yet once the
override is set to force-sleep every evaluation publishes
`is_sleeping = true`, and `trigger_motor` with that published flag sends no
motor command (and raises nothing). -/
theorem override_outranks_enabled_flag (s : SleepSettings) (now : ℤ)
    (serial_ok : Bool) (m : ℕ) (hdis : s.enabled = false) :
    (evaluate_state s none now).is_sleeping = false
    ∧ (evaluate_state s (some true) now).is_sleeping = true
    ∧ trigger_motor (evaluate_state s (some true) now).is_sleeping serial_ok m
        = ⟨[], false⟩ := by
  refine ⟨?_, rfl, rfl⟩
  simp [evaluate_state, is_sleep_period, hdis]

/-- C10 witness: `override_outranks_enabled_flag` on the disabled settings
at noon. -/
theorem override_outranks_enabled_flag_witness :
    (evaluate_state disabledSettings none 720).is_sleeping = false
    ∧ (evaluate_state disabledSettings (some true) 720).is_sleeping = true
    ∧ trigger_motor (evaluate_state disabledSettings (some true) 720).is_sleeping
        true 2 = ⟨[], false⟩ :=
  override_outranks_enabled_flag disabledSettings 720 true 2 rfl

/-- C5: actuation gating at dispatch time.  For a freshly enqueued donation
dispatched at `t_disp` (sink persistence and broadcast healthy): the
processor persists and broadcasts and nothing propagates; when the
published sleep state at the dispatch instant is sleeping the motor command
is not sent, while awake with a healthy serial line it is; and the outcome
depends only on the sleep state *at the dispatch instant* — any two sleep
timelines agreeing at `t_disp` (whatever they did at enqueue time) give the
same result. -/
theorem sleep_gates_motor_at_dispatch (settings : QueueSettings)
    (t0c t_enq t_disp : ℚ) (d : DonationEvent)
    (sleepAt sleepAt' : ℚ → Bool) (serial_ok : Bool)
    (hdue : min (max t0c (t_enq + settings.default_delay_seconds))
        (t_enq + settings.maximum_delay_seconds) ≤ t_disp) :
    (dispatchAt settings sleepAt serial_ok true true
        (enqueue settings (initQueue t0c) t_enq d) t_disp).1
      = some ⟨true, true,
          (trigger_motor (sleepAt t_disp) serial_ok d.motor).commands, false⟩
    ∧ (sleepAt t_disp = true →
        (dispatchAt settings sleepAt serial_ok true true
          (enqueue settings (initQueue t0c) t_enq d) t_disp).1
        = some ⟨true, true, [], false⟩)
    ∧ (sleepAt t_disp = false → serial_ok = true →
        (dispatchAt settings sleepAt serial_ok true true
          (enqueue settings (initQueue t0c) t_enq d) t_disp).1
        = some ⟨true, true, ["MOTOR:" ++ toString d.motor], false⟩)
    ∧ (sleepAt t_disp = sleepAt' t_disp →
        dispatchAt settings sleepAt' serial_ok true true
          (enqueue settings (initQueue t0c) t_enq d) t_disp
        = dispatchAt settings sleepAt serial_ok true true
          (enqueue settings (initQueue t0c) t_enq d) t_disp) := by
  have hq : (enqueue settings (initQueue t0c) t_enq d).queue
      = [(min (max t0c (t_enq + settings.default_delay_seconds))
            (t_enq + settings.maximum_delay_seconds), 0,
          ⟨d, min (max t0c (t_enq + settings.default_delay_seconds))
            (t_enq + settings.maximum_delay_seconds), 0⟩)] := by
    simp [enqueue, initQueue, heapPush]
  refine ⟨?_, ?_, ?_, ?_⟩
  · simp [dispatchAt, dispatchProcessStep, hq, hdue, process]
  · intro hs
    simp [dispatchAt, dispatchProcessStep, hq, hdue, process, trigger_motor, hs]
  · intro hs hser
    simp [dispatchAt, dispatchProcessStep, hq, hdue, process, trigger_motor,
      hs, hser]
  · intro hagree
    simp [dispatchAt, hagree]

/-- C5 witness: `sleep_gates_motor_at_dispatch` with the donation enqueued
at `t = 0` while awake and dispatched at `t = 3` while sleeping: the motor
command is suppressed at dispatch time. -/
theorem sleep_gates_motor_at_dispatch_witness :
    (dispatchAt burstSettings (fun t => decide (2 ≤ t)) true true true
        (enqueue burstSettings (initQueue 0) 0 donA) 3).1
      = some ⟨true, true, [], false⟩ := by
  exact (sleep_gates_motor_at_dispatch burstSettings 0 0 3 donA
      (fun t => decide (2 ≤ t)) (fun t => decide (2 ≤ t)) true
      (by norm_num [burstSettings])).2.1 (by norm_num)

/-- C9 counterexample: with a healthy persistence write and broadcast but a
failing serial line (the actuator raises `SerialException`), `process`
reports no failure (`raised = false`, the exception is caught and only
logged), the motor command is lost, and the worker treats the dispatch as
successful: the entry is discarded, the queue is left empty, and no backoff
reschedule happens. -/
theorem serial_failure_swallowed :
    (dispatchProcessStep burstSettings false false true true
        (enqueue burstSettings (initQueue 0) 0 donC) 0).1
      = some ⟨true, true, [], false⟩
    ∧ (dispatchProcessStep burstSettings false false true true
        (enqueue burstSettings (initQueue 0) 0 donC) 0).2.queue = []
    ∧ (dispatchProcessStep burstSettings false false true true
        (enqueue burstSettings (initQueue 0) 0 donC) 0).2.counter
      = (enqueue burstSettings (initQueue 0) 0 donC).counter := by
  norm_num [dispatchProcessStep, process, trigger_motor, enqueue, initQueue,
    heapPush, burstSettings, donC]

/-- C9 (amended): the failure signal the queue retries on is exactly a
persistence-write or display-broadcast failure: `process` raises iff
`save` or `broadcast` failed — independently of the sleep flag and of the
serial line — and on such a failure the due entry is re-inserted (queue
size preserved), while otherwise (even with the actuator's
`SerialException` swallowed) the entry is discarded with no retry. -/
theorem retry_exactly_on_save_or_broadcast_failure (settings : QueueSettings)
    (sleeping serial_ok save_ok broadcast_ok : Bool) (s : QueueState)
    (now t : ℚ) (c : ℕ) (e : ScheduledDonation) (rest : List HeapCell)
    (hq : s.queue = (t, c, e) :: rest) (hdue : t ≤ now) :
    (process sleeping serial_ok save_ok broadcast_ok e.donation).raised
        = (!save_ok || !broadcast_ok)
    ∧ ((save_ok && broadcast_ok) = false →
        ((dispatchProcessStep settings sleeping serial_ok save_ok broadcast_ok
          s now).2.queue).length = s.queue.length)
    ∧ ((save_ok && broadcast_ok) = true →
        (dispatchProcessStep settings sleeping serial_ok save_ok broadcast_ok
          s now).2.queue = rest) := by
  refine ⟨?_, ?_, ?_⟩
  · cases save_ok <;> cases broadcast_ok <;> simp [process]
  · intro hfail
    have hraised :
        (process sleeping serial_ok save_ok broadcast_ok e.donation).raised
          = true := by
      cases save_ok <;> cases broadcast_ok <;> simp_all [process]
    simp [dispatchProcessStep, hq, hdue, hraised, heapPush_length]
  · intro hok
    have hraised :
        (process sleeping serial_ok save_ok broadcast_ok e.donation).raised
          = false := by
      cases save_ok <;> cases broadcast_ok <;> simp_all [process]
    simp [dispatchProcessStep, hq, hdue, hraised]

/-- C9 amended witness: `retry_exactly_on_save_or_broadcast_failure` at a
concrete failing broadcast — the entry is re-inserted. -/
theorem retry_on_broadcast_failure_witness :
    ((dispatchProcessStep burstSettings false true true false
        (enqueue burstSettings (initQueue 0) 0 donB) 0).2.queue).length
      = (enqueue burstSettings (initQueue 0) 0 donB).queue.length := by
  exact (retry_exactly_on_save_or_broadcast_failure burstSettings false true
    true false (enqueue burstSettings (initQueue 0) 0 donB) 0 0 0
    ⟨donB, 0, 0⟩ []
    (by norm_num [enqueue, initQueue, heapPush, burstSettings])
    (by norm_num)).2.1 rfl

/-! ## Day-arithmetic helpers for the sleep-window invariant -/

theorem dayStart_le (now : ℤ) : dayStart now ≤ now := by
  unfold dayStart; omega

theorem lt_dayStart_add (now : ℤ) : now < dayStart now + 1440 := by
  unfold dayStart; omega

theorem dayStart_add_self (now x : ℤ) (h0 : 0 ≤ x) (h1 : x < 1440) :
    dayStart (dayStart now + x) = dayStart now := by
  unfold dayStart; omega

theorem dayStart_add_day (now x : ℤ) (h0 : 1440 ≤ x) (h1 : x < 2880) :
    dayStart (dayStart now + x) = dayStart now + 1440 := by
  unfold dayStart; omega

theorem is_sleep_period_eq_true (s : SleepSettings) (now : ℤ) :
    is_sleep_period s now = true ↔
      s.enabled = true ∧
        ((s.start < s.end_ ∧ dayStart now + s.start ≤ now
            ∧ now < dayStart now + s.end_)
          ∨ (¬ s.start < s.end_ ∧
              (dayStart now + s.start ≤ now ∨ now < dayStart now + s.end_))) := by
  unfold is_sleep_period
  by_cases he : s.enabled
  · by_cases hlt : s.start < s.end_
    · simp [he, hlt]
    · by_cases hge : dayStart now + s.start ≤ now
      · simp [he, hlt, hge]
      · simp [he, hlt, hge]
  · simp [he]

/-- C8 (amended): with `enabled=false` the state is always awake and
`nextTransition` is the `now + 12h` placeholder.  With `enabled=true`
(times-of-day in range): when `start ≠ end` the computed `nextTransition`
points to an instant of opposite computed state parity; it is strictly
later than the instant it was computed at — *except* in the
same-day-window case (`start < end`) when evaluated awake at or after
`end`, where it points to `start` of the same day, an instant in the
past; and in the degenerate `start = end` window the state is permanently
sleeping and `nextTransition`, while strictly in the future, points to
another *sleeping* instant — the parity does not flip there either. -/
theorem next_transition_parity_and_future (s : SleepSettings) (now : ℤ)
    (hs0 : 0 ≤ s.start) (hs1 : s.start < 1440)
    (he0 : 0 ≤ s.end_) (he1 : s.end_ < 1440) :
    (s.enabled = false →
      is_sleep_period s now = false
      ∧ compute_next_transition s (is_sleep_period s now) now = now + 12 * 60)
    ∧ (s.enabled = true →
      (s.start ≠ s.end_ →
        is_sleep_period s
            (compute_next_transition s (is_sleep_period s now) now)
          = ! is_sleep_period s now)
      ∧ (¬ (s.start < s.end_ ∧ is_sleep_period s now = false
            ∧ dayStart now + s.end_ ≤ now) →
          now < compute_next_transition s (is_sleep_period s now) now)
      ∧ (s.start < s.end_ → is_sleep_period s now = false →
          dayStart now + s.end_ ≤ now →
          compute_next_transition s (is_sleep_period s now) now
              = dayStart now + s.start
            ∧ compute_next_transition s (is_sleep_period s now) now < now)
      ∧ (s.start = s.end_ →
          is_sleep_period s now = true
          ∧ is_sleep_period s
              (compute_next_transition s (is_sleep_period s now) now) = true
          ∧ now < compute_next_transition s (is_sleep_period s now) now)) := by
  constructor
  · intro hd
    constructor
    · simp [is_sleep_period, hd]
    · simp [compute_next_transition, hd]
  · intro he
    have hD1 : dayStart now ≤ now := dayStart_le now
    have hD2 : now < dayStart now + 1440 := lt_dayStart_add now
    by_cases hlt : s.start < s.end_
    · cases hsl : is_sleep_period s now with
      | true =>
        have hx := (is_sleep_period_eq_true s now).mp hsl
        simp only [he, hlt, true_and, not_true, false_and, or_false] at hx
        have ht : compute_next_transition s true now = dayStart now + s.end_ := by
          simp [compute_next_transition, he, hlt]
        rw [ht]
        refine ⟨?_, ?_, ?_, ?_⟩
        · intro _
          simp only [Bool.not_true]
          rw [Bool.eq_false_iff]
          intro hy
          rw [is_sleep_period_eq_true] at hy
          rw [dayStart_add_self now s.end_ he0 he1] at hy
          rcases hy with ⟨_, ⟨_, _, hcl⟩ | ⟨hn, _⟩⟩
          · omega
          · exact hn hlt
        · intro _
          omega
        · intro _ hcontra _
          simp at hcontra
        · intro heq
          exact absurd heq (by omega)
      | false =>
        have hx : ¬ (is_sleep_period s now = true) := by simp [hsl]
        rw [is_sleep_period_eq_true] at hx
        simp only [he, true_and, hlt, not_true, false_and, or_false,
          not_and, not_lt] at hx
        have ht : compute_next_transition s false now = dayStart now + s.start := by
          simp [compute_next_transition, he, hlt]
        rw [ht]
        refine ⟨?_, ?_, ?_, ?_⟩
        · intro _
          simp only [Bool.not_false]
          rw [is_sleep_period_eq_true]
          refine ⟨he, Or.inl ⟨hlt, ?_, ?_⟩⟩
          · rw [dayStart_add_self now s.start hs0 hs1]
          · rw [dayStart_add_self now s.start hs0 hs1]
            omega
        · intro hcond
          simp only [hlt, true_and, not_and, not_le] at hcond
          by_cases hcase : dayStart now + s.start ≤ now
          · exact absurd (hx hcase) (by omega)
          · omega
        · intro _ _ hge
          omega
        · intro heq
          exact absurd heq (by omega)
    · cases hsl : is_sleep_period s now with
      | true =>
        have hx := (is_sleep_period_eq_true s now).mp hsl
        simp only [he, hlt, false_and, false_or, not_false_iff, true_and] at hx
        by_cases hge : dayStart now + s.start ≤ now
        · have ht : compute_next_transition s true now
              = dayStart now + s.end_ + 1440 := by
            simp [compute_next_transition, he, hlt, hge]
          rw [ht]
          refine ⟨?_, ?_, ?_, ?_⟩
          · intro hne
            simp only [Bool.not_true]
            rw [Bool.eq_false_iff]
            intro hy
            rw [is_sleep_period_eq_true] at hy
            have hDs : dayStart (dayStart now + s.end_ + 1440)
                = dayStart now + 1440 := by
              unfold dayStart; omega
            rw [hDs] at hy
            rcases hy with ⟨_, ⟨hl, _⟩ | ⟨_, hor⟩⟩
            · exact hlt hl
            · omega
          · intro _
            omega
          · intro hc _ _
            exact absurd hc hlt
          · intro heq
            refine ⟨rfl, ?_, by omega⟩
            rw [is_sleep_period_eq_true]
            refine ⟨he, Or.inr ⟨hlt, Or.inl ?_⟩⟩
            have hDs : dayStart (dayStart now + s.end_ + 1440)
                = dayStart now + 1440 := by
              unfold dayStart; omega
            rw [hDs]
            omega
        · have hlt2 : now < dayStart now + s.end_ := by
            rcases hx with h | h
            · omega
            · exact h
          have ht : compute_next_transition s true now
              = dayStart now + s.end_ := by
            simp [compute_next_transition, he, hlt, hge]
          rw [ht]
          refine ⟨?_, ?_, ?_, ?_⟩
          · intro hne
            simp only [Bool.not_true]
            rw [Bool.eq_false_iff]
            intro hy
            rw [is_sleep_period_eq_true] at hy
            rw [dayStart_add_self now s.end_ he0 he1] at hy
            rcases hy with ⟨_, ⟨hl, _⟩ | ⟨_, hor⟩⟩
            · exact hlt hl
            · omega
          · intro _
            exact hlt2
          · intro hc _ _
            exact absurd hc hlt
          · intro heq
            refine ⟨rfl, ?_, hlt2⟩
            rw [is_sleep_period_eq_true]
            refine ⟨he, Or.inr ⟨hlt, Or.inl ?_⟩⟩
            rw [dayStart_add_self now s.end_ he0 he1]
            omega
      | false =>
        have hx : ¬ (is_sleep_period s now = true) := by simp [hsl]
        rw [is_sleep_period_eq_true] at hx
        simp only [he, true_and, hlt, false_and, false_or, not_false_iff,
          not_or, not_le, not_lt] at hx
        have ht : compute_next_transition s false now
            = dayStart now + s.start + 1440 := by
          simp [compute_next_transition, he, hlt, hx.2]
        rw [ht]
        refine ⟨?_, ?_, ?_, ?_⟩
        · intro _
          simp only [Bool.not_false]
          rw [is_sleep_period_eq_true]
          refine ⟨he, Or.inr ⟨hlt, Or.inl ?_⟩⟩
          have hDs : dayStart (dayStart now + s.start + 1440)
              = dayStart now + 1440 := by
            unfold dayStart; omega
          rw [hDs]
          omega
        · intro _
          omega
        · intro hc _ _
          exact absurd hc hlt
        · intro heq
          exact absurd hx.2 (by omega)

/-- C8 witness: `next_transition_parity_and_future` on the enabled
crossing-midnight window at `23:30` (parity flips and the transition is
strictly in the future) and on the degenerate `start = end` window at
`10:00` (permanently sleeping, transition in the future). -/
theorem next_transition_parity_and_future_witness :
    (is_sleep_period nightSettings
        (compute_next_transition nightSettings
          (is_sleep_period nightSettings 1410) 1410)
      = ! is_sleep_period nightSettings 1410
    ∧ (1410 : ℤ) < compute_next_transition nightSettings
        (is_sleep_period nightSettings 1410) 1410)
    ∧ (is_sleep_period equalSettings 600 = true
    ∧ (600 : ℤ) < compute_next_transition equalSettings
        (is_sleep_period equalSettings 600) 600) := by
  have h := (next_transition_parity_and_future nightSettings 1410
      (by decide) (by decide) (by decide) (by decide)).2 rfl
  have h2 := (next_transition_parity_and_future equalSettings 600
      (by decide) (by decide) (by decide) (by decide)).2 rfl
  exact ⟨⟨h.1 (by decide), h.2.1 (by decide)⟩,
    (h2.2.2.2 rfl).1, (h2.2.2.2 rfl).2.2⟩

end CatFeeder
